import Mathlib

/-!
Verification of the pushem Push Delivery Engine against its source.

The definitions below are a shallow embedding of the Go source:
* `src/internal/webpush/service.go` — key manager, token signer, delivery
  transport outcome handling (`SendNotification`, `generateToken`,
  `loadOrGenerateKeys`, `generateVAPIDKeys`);
* `src/internal/api/handlers.go` — the `Publish` dispatcher (fan-out loop,
  tally accounting, Gone-driven pruning, bounded-concurrency semaphore);
* `src/internal/db/sqlite.go` — the subscriber store
  (`SaveSubscription` upsert, `GetSubscriptionsByTopic`,
  `DeleteSubscription`).

Machine-level details that the claims do not touch (actual ECDSA signing,
payload encryption, JSON wire encoding of keys) appear as explicit oracle
parameters; everything the claims quantify over is translated directly
from the source.
-/

namespace Pushem

/-! ## String utilities: Go `strings.Contains` -/

/-- Boolean test that the first list is a prefix of the second
(models the inner loop of substring search). -/
def charsPrefixOf : List Char → List Char → Bool
  | [], _ => true
  | _ :: _, [] => false
  | c :: cs, d :: ds => c == d && charsPrefixOf cs ds

/-- Boolean substring occurrence test on character lists:
`charsContains s pat` is true when `pat` occurs contiguously inside `s`. -/
def charsContains : List Char → List Char → Bool
  | [], pat => pat.isEmpty
  | c :: rest, pat => charsPrefixOf pat (c :: rest) || charsContains rest pat

/-- Model of Go `strings.Contains s pat`. -/
def strContains (s pat : String) : Bool :=
  charsContains s.data pat.data

theorem mem_of_charsPrefixOf :
    ∀ pat s, charsPrefixOf pat s = true → ∀ c ∈ pat, c ∈ s := by
  intro pat
  induction pat with
  | nil => intro s _ c hc; cases hc
  | cons p ps ih =>
    intro s h c hc
    cases s with
    | nil => simp [charsPrefixOf] at h
    | cons d ds =>
      simp only [charsPrefixOf, Bool.and_eq_true, beq_iff_eq] at h
      rcases List.mem_cons.mp hc with hc | hc
      · exact List.mem_cons.mpr (Or.inl (hc.trans h.1))
      · exact List.mem_cons.mpr (Or.inr (ih ds h.2 c hc))

theorem mem_of_charsContains :
    ∀ s pat, charsContains s pat = true → ∀ c ∈ pat, c ∈ s := by
  intro s
  induction s with
  | nil =>
    intro pat h c hc
    cases pat with
    | nil => cases hc
    | cons p ps => simp [charsContains, List.isEmpty] at h
  | cons d ds ih =>
    intro pat h c hc
    simp only [charsContains, Bool.or_eq_true] at h
    rcases h with h | h
    · exact mem_of_charsPrefixOf pat (d :: ds) h c hc
    · exact List.mem_cons.mpr (Or.inr (ih pat h c hc))

theorem charsContains_eq_false_of_missing {s pat : List Char} {c : Char}
    (hc : c ∈ pat) (hs : c ∉ s) : charsContains s pat = false := by
  cases h : charsContains s pat
  · rfl
  · exact absurd (mem_of_charsContains s pat h c hc) hs

theorem charsPrefixOf_append :
    ∀ pat s t, charsPrefixOf pat s = true → charsPrefixOf pat (s ++ t) = true := by
  intro pat
  induction pat with
  | nil => intro s t _; rfl
  | cons p ps ih =>
    intro s t h
    cases s with
    | nil => simp [charsPrefixOf] at h
    | cons d ds =>
      simp only [charsPrefixOf, Bool.and_eq_true] at h ⊢
      exact ⟨h.1, ih ds t h.2⟩

theorem charsContains_nil_pat : ∀ s, charsContains s [] = true := by
  intro s
  cases s with
  | nil => rfl
  | cons c rest => simp [charsContains, charsPrefixOf]

theorem charsContains_append_left :
    ∀ s t pat, charsContains s pat = true → charsContains (s ++ t) pat = true := by
  intro s
  induction s with
  | nil =>
    intro t pat h
    cases pat with
    | nil => simpa using charsContains_nil_pat t
    | cons p ps => simp [charsContains, List.isEmpty] at h
  | cons d ds ih =>
    intro t pat h
    simp only [charsContains, Bool.or_eq_true] at h
    simp only [List.cons_append, charsContains, Bool.or_eq_true]
    rcases h with h | h
    · exact Or.inl (by simpa using charsPrefixOf_append pat (d :: ds) t h)
    · exact Or.inr (ih t pat h)

theorem charsContains_append_right :
    ∀ s t pat, charsContains t pat = true → charsContains (s ++ t) pat = true := by
  intro s
  induction s with
  | nil => intro t pat h; simpa using h
  | cons d ds ih =>
    intro t pat h
    simp only [List.cons_append, charsContains, Bool.or_eq_true]
    exact Or.inr (ih t pat h)

/-! ## Decimal rendering: Go `fmt` `%d` for a nonnegative status code -/

/-- The character for a single decimal digit. -/
def digitCharOf (n : Nat) : Char :=
  Char.ofNat (48 + n % 10)

/-- Decimal digit string of a natural number, most significant first
(models what Go `fmt.Errorf` with a `%d` verb prints for a
nonnegative status code). -/
def natDigits (n : Nat) : List Char :=
  if h : n < 10 then [digitCharOf n]
  else natDigits (n / 10) ++ [digitCharOf (n % 10)]
decreasing_by
  exact Nat.div_lt_self (Nat.lt_of_lt_of_le (by decide) (Nat.le_of_not_lt h)) (by decide)

theorem digitCharOf_ne_G : ∀ n, digitCharOf n ≠ 'G' := by
  intro n
  have hlt : n % 10 < 10 := Nat.mod_lt _ (by decide)
  have hall : ∀ m < 10, Char.ofNat (48 + m) ≠ 'G' := by decide
  exact hall (n % 10) hlt

theorem natDigits_no_G : ∀ n, 'G' ∉ natDigits n := by
  intro n
  induction n using Nat.strong_induction_on with
  | _ n ih =>
    rw [natDigits]
    by_cases h : n < 10
    · simp only [h, dite_true, List.mem_singleton]
      exact fun hc => digitCharOf_ne_G n hc.symm
    · simp only [h, dite_false, List.mem_append, List.mem_singleton]
      intro hc
      rcases hc with hc | hc
      · exact ih (n / 10)
          (Nat.div_lt_self (Nat.lt_of_lt_of_le (by decide) (Nat.le_of_not_lt h)) (by decide)) hc
      · exact digitCharOf_ne_G (n % 10) hc.symm

/-! ## Subscriber store: `src/internal/db/sqlite.go`

The `subscriptions` table is modelled as a list of rows; the
`UNIQUE(topic, endpoint)` constraint is the `UniqueKeys` predicate. -/

/-- One row of the `subscriptions` table (`db.Subscription`). -/
structure Subscription where
  id : Nat
  topic : String
  endpoint : String
  p256dh : String
  auth : String
deriving DecidableEq

/-- Boolean key test for the `(topic, endpoint)` identity key. -/
def keyMatches (t e : String) (s : Subscription) : Bool :=
  s.topic == t && s.endpoint == e

/-- The `UNIQUE(topic, endpoint)` table constraint. -/
def UniqueKeys (store : List Subscription) : Prop :=
  store.Pairwise fun a b => ¬(a.topic = b.topic ∧ a.endpoint = b.endpoint)

instance (store : List Subscription) : Decidable (UniqueKeys store) := by
  unfold UniqueKeys
  infer_instance

/-- Whether some row already has the `(topic, endpoint)` key. -/
def hasKey (store : List Subscription) (t e : String) : Bool :=
  store.any (keyMatches t e)

/-- Number of rows holding the `(topic, endpoint)` key. -/
def keyCount (store : List Subscription) (t e : String) : Nat :=
  store.countP (keyMatches t e)

/-- The id `AUTOINCREMENT` assigns to a newly inserted row. -/
def nextId (store : List Subscription) : Nat :=
  (store.foldl (fun m s => max m s.id) 0) + 1

/-- `DB.SaveSubscription` (sqlite.go lines 122-132):
`INSERT ... ON CONFLICT(topic, endpoint) DO UPDATE SET p256dh, auth`.
On conflict the existing row's key material is overwritten in place;
otherwise a fresh row is appended. -/
def SaveSubscription (store : List Subscription) (topic endpoint p256dh auth : String) :
    List Subscription :=
  if hasKey store topic endpoint then
    store.map fun s =>
      if keyMatches topic endpoint s then
        { s with p256dh := p256dh, auth := auth }
      else s
  else
    store ++ [⟨nextId store, topic, endpoint, p256dh, auth⟩]

/-- `DB.GetSubscriptionsByTopic` (sqlite.go lines 134-152):
`SELECT ... FROM subscriptions WHERE topic = ?`. -/
def GetSubscriptionsByTopic (store : List Subscription) (topic : String) :
    List Subscription :=
  store.filter fun s => s.topic == topic

/-- `DB.DeleteSubscription` (sqlite.go lines 154-158):
`DELETE FROM subscriptions WHERE endpoint = ?` — keyed by endpoint only,
with no topic restriction. -/
def DeleteSubscription (store : List Subscription) (endpoint : String) :
    List Subscription :=
  store.filter fun s => !(s.endpoint == endpoint)

/-! ## Delivery transport outcome and its handling
(`src/internal/webpush/service.go`) -/

/-- What one HTTPS delivery attempt to a push provider produced:
either an HTTP response with a status code, or no response at all
(network error, timeout, or a signing failure raised before the
response; the attached message is the diagnostic text of that error,
produced by the HTTP stack outside this repository). -/
inductive TransportOutcome where
  | response (status : Nat)
  | networkError (msg : String)
deriving DecidableEq

/-- Error result of `Service.SendNotification` (service.go lines 155-176;
the Apple branch `sendToApple`, lines 333-358, builds the identical
strings): `none` means the delivery succeeded, `some e` carries the error
text the caller will inspect.  A pre-response failure is wrapped as
`failed to send notification: ...`; status 410 yields the fixed
`subscription expired (410 Gone)` text; any other non-2xx status yields
`push service returned status: <code>`. -/
def sendNotificationResult (o : TransportOutcome) : Option String :=
  match o with
  | .networkError msg => some ("failed to send notification: " ++ msg)
  | .response status =>
      if status == 410 then
        some "subscription expired (410 Gone)"
      else if status < 200 || 300 ≤ status then
        some ("push service returned status: " ++ String.mk (natDigits status))
      else
        none

/-- The failure taxonomy of one delivery attempt. -/
inductive Class where
  | Delivered
  | Gone
  | Transient
deriving DecidableEq

/-- The classification the claim (and spec section 4.4) states:
status 2xx is Delivered, status 410 is Gone, every other outcome
(other 4xx, 5xx, network error, timeout) is Transient.  This definition
follows the spec wording and is compared against the code's behavior. -/
def claimClassify (o : TransportOutcome) : Class :=
  match o with
  | .networkError _ => .Transient
  | .response status =>
      if 200 ≤ status ∧ status < 300 then .Delivered
      else if status = 410 then .Gone
      else .Transient

/-- The classification the code actually performs, assembled from
`SendNotification`'s result and the dispatcher's branching
(handlers.go lines 898-916): a nil error counts as sent; a non-nil error
counts as failed and additionally triggers deletion exactly when its text
contains the substring `410 Gone`. -/
def codeClassify (o : TransportOutcome) : Class :=
  match sendNotificationResult o with
  | none => .Delivered
  | some e => if strContains e "410 Gone" then .Gone else .Transient

/-- Whether the dispatcher's Gone-branch (and hence
`DeleteSubscription`) fires for this outcome. -/
def deliveryDeletes (o : TransportOutcome) : Bool :=
  match sendNotificationResult o with
  | none => false
  | some e => strContains e "410 Gone"

/-- The `push service returned status: <code>` text never contains the
substring `410 Gone`, whatever the status code: the rendered code is all
decimal digits and the fixed prefix has no capital G. -/
theorem statusMsg_not_gone (status : Nat) :
    strContains ("push service returned status: " ++ String.mk (natDigits status))
      "410 Gone" = false := by
  have hdata : ("push service returned status: " ++ String.mk (natDigits status)).data
      = "push service returned status: ".data ++ natDigits status := by
    simp [String.data_append]
  have hGpat : 'G' ∈ "410 Gone".data := by decide
  have hGabs : 'G' ∉ "push service returned status: ".data ++ natDigits status := by
    intro hmem
    rcases List.mem_append.mp hmem with h | h
    · revert h; decide
    · exact natDigits_no_G status h
  unfold strContains
  rw [hdata]
  exact charsContains_eq_false_of_missing hGpat hGabs

theorem deliveryDeletes_iff_codeGone (o : TransportOutcome) :
    deliveryDeletes o = true ↔ codeClassify o = .Gone := by
  unfold deliveryDeletes codeClassify
  cases h : sendNotificationResult o with
  | none => simp
  | some e =>
    by_cases hc : strContains e "410 Gone" = true
    · simp [hc]
    · simp [Bool.eq_false_iff.mpr hc]

/-! ## Dispatcher: `Handler.Publish` (`src/internal/api/handlers.go`,
lines 799-930, modelled from the point where the subscriber list is
requested; request parsing, validation and authorization happen upstream).

The fan-out loop spawns one goroutine per loaded subscription; every
goroutine performs exactly one `SendNotification` call and then
increments exactly one of the two mutex-guarded counters.  Counter
increments commute and the Gone-driven deletions are keyed by endpoint
and touch only the store, so the loop's aggregate effect is
order-independent; it is embedded as a left fold over the loaded list.
The bound on how many deliveries are simultaneously in flight is a
separate, genuinely temporal question and is modelled by the small-step
system `ConcStep` further below. -/

/-- The delivery environment: which transport outcome each loaded
subscription's HTTPS delivery produces. -/
def Env : Type := Subscription → TransportOutcome

/-- The aggregated counters (`sent`, `failed` in `Publish`). -/
structure Tally where
  sent : Nat
  failed : Nat
deriving DecidableEq

/-- Running state of the fan-out: the subscriber store (mutated by
Gone-driven deletions), the tally, and the number of
`SendNotification` invocations (network calls) performed so far. -/
structure FanoutState where
  store : List Subscription
  tally : Tally
  calls : Nat
deriving DecidableEq

/-- The body of one fan-out goroutine (handlers.go lines 893-917):
call `SendNotification`; on a nil error increment `sent`; on an error
increment `failed`, and first delete the subscription by endpoint when
the error text contains `410 Gone`. -/
def deliverOne (env : Env) (fs : FanoutState) (s : Subscription) : FanoutState :=
  match sendNotificationResult (env s) with
  | none =>
      { fs with
        tally := { fs.tally with sent := fs.tally.sent + 1 },
        calls := fs.calls + 1 }
  | some e =>
      { store :=
          if strContains e "410 Gone" then DeleteSubscription fs.store s.endpoint
          else fs.store,
        tally := { fs.tally with failed := fs.tally.failed + 1 },
        calls := fs.calls + 1 }

/-- The whole fan-out over the loaded subscription list, starting from
zero counters and zero network calls. -/
def publishLoop (env : Env) (subs : List Subscription) (store : List Subscription) :
    FanoutState :=
  subs.foldl (deliverOne env) ⟨store, ⟨0, 0⟩, 0⟩

/-- The JSON object `Publish` writes on success.  `failed = none`
mirrors that the zero-subscriber early return (handlers.go lines
872-880) encodes only `status` and `sent`, while the full path (lines
924-929) also encodes `failed`. -/
structure PublishResponse where
  status : String
  sent : Nat
  failed : Option Nat
deriving DecidableEq

/-- `Handler.Publish` from the subscriber-list load on (handlers.go
lines 865-930), given that the list was obtained: the store snapshot and
the per-subscriber outcomes determine the response, the final store and
the number of network calls. -/
def Publish (env : Env) (store : List Subscription) (topic : String) :
    PublishResponse × FanoutState :=
  if (GetSubscriptionsByTopic store topic).isEmpty then
    (⟨"published", 0, none⟩, ⟨store, ⟨0, 0⟩, 0⟩)
  else
    (⟨"published",
      (publishLoop env (GetSubscriptionsByTopic store topic) store).tally.sent,
      some (publishLoop env (GetSubscriptionsByTopic store topic) store).tally.failed⟩,
     publishLoop env (GetSubscriptionsByTopic store topic) store)

/-- Result of the publish HTTP handler around the store access. -/
structure HTTPResult where
  response : Option PublishResponse
  httpStatus : Nat
  store : List Subscription
  calls : Nat
deriving DecidableEq

/-- `Handler.Publish` including the store access (handlers.go lines
865-870): when `GetSubscriptionsByTopic` fails the handler answers
HTTP 500 (`failed to get subscriptions`) and attempts no delivery;
otherwise it always produces a tally response with HTTP 200. -/
def PublishHTTP (env : Env) (dbAvailable : Bool) (store : List Subscription)
    (topic : String) : HTTPResult :=
  if dbAvailable then
    let (r, fs) := Publish env store topic
    ⟨some r, 200, fs.store, fs.calls⟩
  else
    ⟨none, 500, store, 0⟩

/-! ### Fold lemmas about the fan-out -/

theorem foldl_deliverOne_tally (env : Env) :
    ∀ (subs : List Subscription) (fs : FanoutState),
      (subs.foldl (deliverOne env) fs).tally.sent
          + (subs.foldl (deliverOne env) fs).tally.failed
        = fs.tally.sent + fs.tally.failed + subs.length
      ∧ (subs.foldl (deliverOne env) fs).calls = fs.calls + subs.length := by
  intro subs
  induction subs with
  | nil => intro fs; simp
  | cons s rest ih =>
    intro fs
    rw [List.foldl_cons]
    rcases ih (deliverOne env fs s) with ⟨h1, h2⟩
    have hone : (deliverOne env fs s).tally.sent + (deliverOne env fs s).tally.failed
          = fs.tally.sent + fs.tally.failed + 1
        ∧ (deliverOne env fs s).calls = fs.calls + 1 := by
      unfold deliverOne
      cases sendNotificationResult (env s) <;> simp <;> omega
    constructor
    · rw [h1, hone.1]; simp [List.length_cons]; omega
    · rw [h2, hone.2]; simp [List.length_cons]; omega

theorem foldl_deliverOne_failed (env : Env) :
    ∀ (subs : List Subscription) (fs : FanoutState),
      (subs.foldl (deliverOne env) fs).tally.failed
        = fs.tally.failed
          + (subs.filter fun s => (sendNotificationResult (env s)).isSome).length
      ∧ (subs.foldl (deliverOne env) fs).tally.sent
        = fs.tally.sent
          + (subs.filter fun s => (sendNotificationResult (env s)).isNone).length := by
  intro subs
  induction subs with
  | nil => intro fs; simp
  | cons s rest ih =>
    intro fs
    rw [List.foldl_cons]
    rcases ih (deliverOne env fs s) with ⟨h1, h2⟩
    constructor
    · rw [h1]
      unfold deliverOne
      cases h : sendNotificationResult (env s) <;>
        simp [List.filter_cons, h] <;> omega
    · rw [h2]
      unfold deliverOne
      cases h : sendNotificationResult (env s) <;>
        simp [List.filter_cons, h] <;> omega

theorem beqStrComm (x y : String) : (x == y) = (y == x) := by
  by_cases h : x = y
  · subst h; rfl
  · rw [beq_eq_false_iff_ne.mpr h, beq_eq_false_iff_ne.mpr (fun hyx => h hyx.symm)]

theorem foldl_deliverOne_store (env : Env) :
    ∀ (subs : List Subscription) (fs : FanoutState),
      (subs.foldl (deliverOne env) fs).store
        = fs.store.filter fun r =>
            !(subs.any fun s => deliveryDeletes (env s) && s.endpoint == r.endpoint) := by
  intro subs
  induction subs with
  | nil =>
    intro fs
    simp
  | cons s rest ih =>
    intro fs
    rw [List.foldl_cons, ih]
    have hstep : (deliverOne env fs s).store
        = fs.store.filter fun r => !(deliveryDeletes (env s) && s.endpoint == r.endpoint) := by
      unfold deliverOne deliveryDeletes DeleteSubscription
      cases h : sendNotificationResult (env s) with
      | none => simp
      | some e =>
        by_cases hc : strContains e "410 Gone" = true
        · simp only [hc, if_true, Bool.true_and]
          exact List.filter_congr fun r _ => by rw [beqStrComm]
        · simp [Bool.eq_false_iff.mpr hc]
    rw [hstep, List.filter_filter]
    apply List.filter_congr
    intro r _
    simp only [List.any_cons, Bool.not_or, Bool.and_comm]

/-! ## Bounded concurrency (handlers.go lines 885-896)

The fan-out gates every goroutine on a buffered channel of capacity
`MaxConcurrentPushes`: a worker first sends into the channel (blocking
while the buffer is full, i.e. while `MaxConcurrentPushes` slots are
taken), then performs its one `SendNotification` call, and receives from
the channel when it returns.  The interleaving semantics of that
discipline is the small-step system below: a worker is `idle` before it
has acquired a slot, `inFlight` while it holds a slot (its network call
is running), and `done` after it has released the slot. -/

/-- `const MaxConcurrentPushes = 10` (handlers.go line 886). -/
def MaxConcurrentPushes : Nat := 10

/-- Phase of one fan-out goroutine with respect to the semaphore. -/
inductive WorkerPhase where
  | idle
  | inFlight
  | done
deriving DecidableEq

/-- Global scheduler state: the phase of every spawned worker and the
number of occupied slots of the capacity-10 channel. -/
structure ConcState where
  workers : List WorkerPhase
  sem : Nat
deriving DecidableEq

/-- One scheduler step.  `acquire` is the channel send `sem <- struct{}{}`:
it is only enabled while fewer than `MaxConcurrentPushes` slots are
taken, and moves the worker's transport call in flight.  `finish` is the
return of the call followed by the deferred receive `<-sem`. -/
inductive ConcStep : ConcState → ConcState → Prop where
  | acquire (ws₁ ws₂ : List WorkerPhase) (sem : Nat) :
      sem < MaxConcurrentPushes →
      ConcStep ⟨ws₁ ++ .idle :: ws₂, sem⟩ ⟨ws₁ ++ .inFlight :: ws₂, sem + 1⟩
  | finish (ws₁ ws₂ : List WorkerPhase) (sem : Nat) :
      ConcStep ⟨ws₁ ++ .inFlight :: ws₂, sem⟩ ⟨ws₁ ++ .done :: ws₂, sem - 1⟩

/-- States reachable during one publish to `n` subscribers: all `n`
workers start idle with the channel empty, then scheduler steps
interleave arbitrarily. -/
inductive ConcReachable : ConcState → Prop where
  | init (n : Nat) : ConcReachable ⟨List.replicate n .idle, 0⟩
  | step {s s' : ConcState} : ConcReachable s → ConcStep s s' → ConcReachable s'

/-- The number of delivery transport calls currently in flight. -/
def inFlightCount (ws : List WorkerPhase) : Nat :=
  ws.countP fun w => w == .inFlight

theorem concInvariant {s : ConcState} (h : ConcReachable s) :
    inFlightCount s.workers = s.sem ∧ s.sem ≤ MaxConcurrentPushes := by
  induction h with
  | init n =>
    refine ⟨?_, Nat.zero_le _⟩
    simp [inFlightCount, List.countP_eq_length_filter]
  | step _ hstep ih =>
    rcases hstep with ⟨ws₁, ws₂, sem, hlt⟩ | ⟨ws₁, ws₂, sem⟩
    · have h1 := ih.1
      simp only [inFlightCount, List.countP_append, List.countP_cons,
        show ((WorkerPhase.idle == WorkerPhase.inFlight) = false) from rfl,
        show ((WorkerPhase.inFlight == WorkerPhase.inFlight) = true) from rfl] at h1 ⊢
      simp at h1 ⊢
      omega
    · have h1 := ih.1
      have h2 := ih.2
      simp only [inFlightCount, List.countP_append, List.countP_cons,
        show ((WorkerPhase.done == WorkerPhase.inFlight) = false) from rfl,
        show ((WorkerPhase.inFlight == WorkerPhase.inFlight) = true) from rfl] at h1 h2 ⊢
      simp at h1 h2 ⊢
      omega

/-! ## Token signer: `src/internal/webpush/service.go`

Apple endpoints are detected by `strings.Contains(endpoint,
"push.apple.com")` (line 142) and routed through `sendToApple`, whose
`AppleTransport.RoundTrip` (final revision, lines 266-282) computes the
VAPID token audience as the request URL's scheme and host and signs a
token expiring 45 minutes from issuance (`generateToken`, lines 284-303).
Non-Apple endpoints are delivered through the `webpush-go` library. -/

/-- A parsed endpoint URL as the HTTP stack sees it
(scheme, host, and the remainder of the URL). -/
structure EndpointURL where
  scheme : String
  host : String
  path : String
deriving DecidableEq

/-- The endpoint as the literal string stored in the subscription row,
which is what the `strings.Contains` provider check inspects. -/
def endpointString (u : EndpointURL) : String :=
  u.scheme ++ "://" ++ u.host ++ u.path

/-- Scheme-plus-host origin of an endpoint, as computed by
`fmt.Sprintf("%s://%s", req.URL.Scheme, req.URL.Host)` (line 268). -/
def originOf (u : EndpointURL) : String :=
  u.scheme ++ "://" ++ u.host

/-- The provider check of `SendNotification` (line 142). -/
def isAppleEndpoint (endpoint : String) : Bool :=
  strContains endpoint "push.apple.com"

/-- Whether the endpoint's host itself matches the Apple push provider
domain (the claim's premise speaks of the host). -/
def hostMatchesApple (u : EndpointURL) : Bool :=
  strContains u.host "push.apple.com"

/-- Apple's fixed push-service origin, the value the claim says the
audience is pinned to. -/
def appleFixedOrigin : String := "https://web.push.apple.com"

/-- Seconds until expiry of the VAPID token signed for an Apple-detected
endpoint: `time.Now().Add(45 * time.Minute)` (line 298). -/
def appleTokenLifetimeSeconds : Nat := 45 * 60

/-- Modelled from the spec: token lifetime for non-Apple endpoints, where
signing is delegated to the external `webpush-go` library (service.go
lines 155-160); per spec section 4.2 generic providers receive the
longer-lived default assertion (the library's 12-hour expiry). -/
def genericTokenLifetimeSeconds : Nat := 12 * 3600

/-- Lifetime of the assertion issued for an endpoint: the Apple branch
uses `generateToken`'s 45 minutes, the generic branch the library
default. -/
def tokenLifetimeSeconds (u : EndpointURL) : Nat :=
  if isAppleEndpoint (endpointString u) then appleTokenLifetimeSeconds
  else genericTokenLifetimeSeconds

/-- Unix time at which the assertion for `u` issued at `now` expires
(`exp` claim). -/
def assertionExpiry (now : Nat) (u : EndpointURL) : Nat :=
  now + tokenLifetimeSeconds u

/-- The `aud` claim of the signed assertion for endpoint `u`.  Apple
branch: `generateToken` receives `origin` derived from the request URL
(lines 268-270, 297).  Generic branch, modelled from the spec: the
`webpush-go` library likewise sets the audience to the literal request
origin (spec section 4.2). -/
def assertionAudience (u : EndpointURL) : String :=
  if isAppleEndpoint (endpointString u) then originOf u
  else originOf u

/-! ## Key manager: `loadOrGenerateKeys` and `generateVAPIDKeys`
(`src/internal/webpush/service.go`, lines 48-115) -/

/-- The persisted keypair (`VAPIDKeys`), both halves base64url strings. -/
structure VAPIDKeys where
  privateKey : String
  publicKey : String
deriving DecidableEq

/-- State of the `vapid_keys.json` file: its contents when it exists and
is readable, and its permission bits. -/
structure FileState where
  contents : Option String
  mode : Option Nat
deriving DecidableEq

/-- Failure of the key manager. -/
inductive KeyStoreError where
  | corruptKeyStore
deriving DecidableEq

/-- `generateVAPIDKeys` (lines 90-115), with the elliptic-curve sampling
and base64url codec as oracles: `dBytes` is the generated private scalar
`D`, `pubBytes` the uncompressed public point, `encodeB64url` the
`base64.RawURLEncoding` encoder.  The private scalar is left-padded with
zero bytes to exactly 32 bytes before encoding (lines 99-105). -/
def pad32 (bytes : List Nat) : List Nat :=
  if bytes.length < 32 then List.replicate (32 - bytes.length) 0 ++ bytes else bytes

def generateVAPIDKeys (encodeB64url : List Nat → String)
    (dBytes pubBytes : List Nat) : VAPIDKeys :=
  { privateKey := encodeB64url (pad32 dBytes),
    publicKey := encodeB64url pubBytes }

/-- `loadOrGenerateKeys` (lines 48-88) with the JSON codec as oracles
(`parse` is `json.Unmarshal` into `VAPIDKeys`, `ser` is
`json.MarshalIndent`) and the freshly generated keypair `freshKeys` as
the randomness oracle.  If the file exists its contents are parsed, a
parse failure is the corrupt-key-store error and nothing is generated or
written; if the file is absent the fresh keypair is serialized and
written with mode `0600` and returned. -/
def loadOrGenerateKeys (parse : String → Option VAPIDKeys)
    (ser : VAPIDKeys → String) (freshKeys : VAPIDKeys) (fs : FileState) :
    Except KeyStoreError (VAPIDKeys × FileState) :=
  match fs.contents with
  | some data =>
      match parse data with
      | some keys => .ok (keys, fs)
      | none => .error .corruptKeyStore
  | none =>
      .ok (freshKeys, { contents := some (ser freshKeys), mode := some 0o600 })

/-! ## Bridge lemmas -/

theorem classify_response_eq (status : Nat) :
    codeClassify (.response status) = claimClassify (.response status) := by
  by_cases h410 : status = 410
  · subst h410; decide
  · by_cases h2xx : 200 ≤ status ∧ status < 300
    · have hbeq : (status == 410) = false := by simp [h410]
      have hin : ¬(status < 200 || 300 ≤ status) = true := by
        simp only [Bool.or_eq_true, decide_eq_true_eq]
        omega
      unfold codeClassify claimClassify sendNotificationResult
      simp [hbeq, Bool.eq_false_iff.mp (Bool.not_eq_true _ ▸ hin), h2xx]
    · have hbeq : (status == 410) = false := by simp [h410]
      have hout : (status < 200 || 300 ≤ status) = true := by
        simp only [Bool.or_eq_true, decide_eq_true_eq]
        omega
      unfold codeClassify claimClassify sendNotificationResult
      simp [hbeq, hout, h2xx, h410, statusMsg_not_gone status]

theorem deliveryDeletes_eq_decide (o : TransportOutcome) :
    deliveryDeletes o = decide (codeClassify o = Class.Gone) := by
  by_cases h : codeClassify o = Class.Gone
  · rw [(deliveryDeletes_iff_codeGone o).mpr h, decide_eq_true h]
  · have hd : deliveryDeletes o ≠ true :=
      fun ht => h ((deliveryDeletes_iff_codeGone o).mp ht)
    rw [Bool.eq_false_iff.mpr hd, decide_eq_false h]

theorem notDelivered_eq_isSome (o : TransportOutcome) :
    (!(decide (codeClassify o = Class.Delivered))) = (sendNotificationResult o).isSome := by
  unfold codeClassify
  cases h : sendNotificationResult o with
  | none => simp
  | some e => by_cases hc : strContains e "410 Gone" = true <;> simp [hc]

/-- The final store of a publish is the snapshot filtered by the set of
endpoints whose delivery the code classified Gone. -/
theorem publish_store_filter (env : Env) (store : List Subscription) (topic : String) :
    (Publish env store topic).2.store
      = store.filter fun r =>
          !((GetSubscriptionsByTopic store topic).any fun s =>
              decide (codeClassify (env s) = Class.Gone) && s.endpoint == r.endpoint) := by
  unfold Publish
  by_cases he : (GetSubscriptionsByTopic store topic).isEmpty
  · have h0 : GetSubscriptionsByTopic store topic = [] := List.isEmpty_iff.mp he
    simp [he, h0]
  · rw [if_neg he]
    dsimp only [publishLoop]
    rw [foldl_deliverOne_store env (GetSubscriptionsByTopic store topic) ⟨store, ⟨0, 0⟩, 0⟩]
    simp only [deliveryDeletes_eq_decide]

/-- The `failed` counter of a publish response counts exactly the loaded
subscriptions whose delivery was not classified Delivered. -/
theorem publish_failed_count (env : Env) (store : List Subscription) (topic : String) :
    (Publish env store topic).1.failed.getD 0
      = ((GetSubscriptionsByTopic store topic).filter fun s =>
          !(decide (codeClassify (env s) = Class.Delivered))).length := by
  unfold Publish
  by_cases he : (GetSubscriptionsByTopic store topic).isEmpty
  · have h0 : GetSubscriptionsByTopic store topic = [] := List.isEmpty_iff.mp he
    simp [he, h0]
  · rw [if_neg he]
    dsimp only [publishLoop]
    rw [(foldl_deliverOne_failed env (GetSubscriptionsByTopic store topic) ⟨store, ⟨0, 0⟩, 0⟩).1]
    simp only [notDelivered_eq_isSome]
    simp

/-! ### Endpoint-string lemmas for the token signer -/

theorem strContains_append_right_str (s t pat : String)
    (h : strContains t pat = true) : strContains (s ++ t) pat = true := by
  unfold strContains at h ⊢
  rw [String.data_append]
  exact charsContains_append_right s.data t.data pat.data h

theorem strContains_append_left_str (s t pat : String)
    (h : strContains s pat = true) : strContains (s ++ t) pat = true := by
  unfold strContains at h ⊢
  rw [String.data_append]
  exact charsContains_append_left s.data t.data pat.data h

theorem strContains_origin_of_host (u : EndpointURL) (pat : String)
    (h : strContains u.host pat = true) : strContains (originOf u) pat = true := by
  unfold originOf
  exact strContains_append_right_str _ _ _ h

theorem strContains_endpoint_of_origin (u : EndpointURL) (pat : String)
    (h : strContains (originOf u) pat = true) :
    strContains (endpointString u) pat = true := by
  unfold endpointString
  unfold originOf at h
  exact strContains_append_left_str _ _ _ h

/-! ### Upsert lemmas for the subscriber store -/

/-- The row update of the upsert's conflict branch preserves the
identity key. -/
theorem upsertRow_keys (t e p a : String) (s : Subscription) :
    ((if keyMatches t e s then { s with p256dh := p, auth := a } else s) : Subscription).topic
        = s.topic
    ∧ ((if keyMatches t e s then { s with p256dh := p, auth := a } else s) : Subscription).endpoint
        = s.endpoint := by
  by_cases h : keyMatches t e s = true <;> simp [h]

theorem keyCount_eq_one_of_unique (store : List Subscription) (t e : String)
    (hu : UniqueKeys store) (hk : hasKey store t e = true) :
    keyCount store t e = 1 := by
  induction store with
  | nil => simp [hasKey] at hk
  | cons s rest ih =>
    rcases List.pairwise_cons.mp hu with ⟨hhead, htail⟩
    by_cases hm : keyMatches t e s = true
    · have hst : s.topic = t ∧ s.endpoint = e := by
        have := hm
        unfold keyMatches at this
        simp only [Bool.and_eq_true, beq_iff_eq] at this
        exact this
      have hzero : rest.countP (keyMatches t e) = 0 := by
        rw [List.countP_eq_zero]
        intro b hb
        intro hbm
        unfold keyMatches at hbm
        simp only [Bool.and_eq_true, beq_iff_eq] at hbm
        exact hhead b hb ⟨hst.1.trans hbm.1.symm, hst.2.trans hbm.2.symm⟩
      unfold keyCount
      rw [List.countP_cons]
      simp [hm, hzero]
    · have hk' : hasKey rest t e = true := by
        unfold hasKey at hk
        rcases List.any_eq_true.mp hk with ⟨b, hb, hbm⟩
        rcases List.mem_cons.mp hb with rfl | hb'
        · exact absurd hbm hm
        · exact List.any_eq_true.mpr ⟨b, hb', hbm⟩
      unfold keyCount
      rw [List.countP_cons]
      simp only [hm]
      simpa using ih htail hk'

theorem keyCount_eq_zero_of_not_hasKey (store : List Subscription) (t e : String)
    (hk : hasKey store t e = false) : keyCount store t e = 0 := by
  unfold keyCount
  rw [List.countP_eq_zero]
  intro b hb hbm
  unfold hasKey at hk
  have : store.any (keyMatches t e) = true := List.any_eq_true.mpr ⟨b, hb, hbm⟩
  rw [hk] at this
  cases this

/-! ## Claim theorems -/

/-- Claim C1: for every publish call whose subscriber list was
successfully loaded, the returned tally satisfies
`sent + failed = number of subscriber records loaded for the topic`;
each delivery attempt increments exactly one of the two counters. -/
theorem C1_publish_tally_sum (env : Env) (store : List Subscription) (topic : String) :
    (Publish env store topic).1.sent + (Publish env store topic).1.failed.getD 0
      = (GetSubscriptionsByTopic store topic).length := by
  unfold Publish
  by_cases he : (GetSubscriptionsByTopic store topic).isEmpty
  · have h0 : GetSubscriptionsByTopic store topic = [] := List.isEmpty_iff.mp he
    simp [he, h0]
  · rw [if_neg he]
    dsimp only [publishLoop]
    have := (foldl_deliverOne_tally env (GetSubscriptionsByTopic store topic)
      ⟨store, ⟨0, 0⟩, 0⟩).1
    simpa using this

/-- Claim C3: the failure classification performed by the code maps an
HTTP status of 2xx to Delivered, 410 to Gone, and every other status to
Transient, exactly as the spec's `classify` table states. -/
theorem C3_status_classification (status : Nat) :
    codeClassify (.response status) = claimClassify (.response status) :=
  classify_response_eq status

/-- Claim C5, counterexample: publishing to a topic with zero
subscribers does perform zero network calls, but the response encodes no
`failed` field at all (`{"status":"published","sent":0}`,
handlers.go lines 872-880), so the returned tally is not
`{sent:0, failed:0}` as claimed. -/
theorem C5_counterexample :
    (Publish (fun _ => TransportOutcome.response 200) [] "alerts").1.failed ≠ some 0
    ∧ (Publish (fun _ => TransportOutcome.response 200) [] "alerts").1
        = ⟨"published", 0, none⟩
    ∧ (Publish (fun _ => TransportOutcome.response 200) [] "alerts").2.calls = 0 := by
  decide

/-- Claim C5 as amended: publishing to a topic with zero subscribers
returns `{status:"published", sent:0}` with the `failed` field omitted
from the response (rather than `failed:0`), leaves the store untouched
and performs zero network calls. -/
theorem C5_empty_topic (env : Env) (store : List Subscription) (topic : String)
    (h : GetSubscriptionsByTopic store topic = []) :
    Publish env store topic = (⟨"published", 0, none⟩, ⟨store, ⟨0, 0⟩, 0⟩) := by
  unfold Publish
  simp [h]

/-- Witness for C5: a store whose only subscription belongs to another
topic yields the empty-topic response with zero network calls. -/
theorem C5_empty_topic_witness :
    GetSubscriptionsByTopic [⟨1, "other", "https://e.example/1", "k", "a"⟩] "alerts" = []
    ∧ Publish (fun _ => TransportOutcome.response 200)
        [⟨1, "other", "https://e.example/1", "k", "a"⟩] "alerts"
      = (⟨"published", 0, none⟩,
         ⟨[⟨1, "other", "https://e.example/1", "k", "a"⟩], ⟨0, 0⟩, 0⟩) :=
  ⟨by decide, C5_empty_topic _ _ _ (by decide)⟩

/-- Claim C6: once the subscriber list was obtained the publish call
always answers with a tally (HTTP 200) whatever the per-subscriber
outcomes are — delivery failures of any kind, signing failures included,
are contained in the fan-out — while a failure to obtain the list
answers HTTP 500 with no response tally and zero deliveries attempted. -/
theorem C6_error_containment (env : Env) (store : List Subscription) (topic : String) :
    (PublishHTTP env true store topic).response.isSome = true
    ∧ (PublishHTTP env true store topic).httpStatus = 200
    ∧ (PublishHTTP env false store topic).response = none
    ∧ (PublishHTTP env false store topic).httpStatus = 500
    ∧ (PublishHTTP env false store topic).calls = 0 := by
  unfold PublishHTTP Publish
  by_cases he : (GetSubscriptionsByTopic store topic).isEmpty <;> simp [he]

/-- Claim C2, counterexample: the code decides deletion by testing
whether the delivery error's text contains the substring `410 Gone`
(handlers.go line 902), so a delivery that never reached the provider —
a network error, classified Transient by the spec's table — whose
diagnostic text happens to contain `410 Gone` deletes the subscriber
record: deletion is not equivalent to a Gone classification. -/
theorem C2_counterexample :
    claimClassify (TransportOutcome.networkError "dial tcp: lookup 410 Gone")
        = Class.Transient
    ∧ (Publish (fun _ => TransportOutcome.networkError "dial tcp: lookup 410 Gone")
          [⟨1, "t", "https://h.example/a", "k", "a"⟩] "t").2.store = [] := by
  decide

/-- Claim C2 as amended: a subscriber record is deleted during publish
iff some loaded subscription with its endpoint had a delivery whose
error text contains `410 Gone`; that code-level Gone test holds exactly
for the outcomes the spec classifies Gone (status 410) plus network
errors whose diagnostic text contains the substring `410 Gone`.  Every
attempt not classified Delivered — Gone attempts included — is counted
in `failed`, and no Delivered outcome nor non-410 HTTP status ever
causes a deletion. -/
theorem C2_deletion_characterization (env : Env) (store : List Subscription)
    (topic : String) :
    ((Publish env store topic).2.store
        = store.filter fun r =>
            !((GetSubscriptionsByTopic store topic).any fun s =>
                decide (codeClassify (env s) = Class.Gone) && s.endpoint == r.endpoint))
    ∧ ((Publish env store topic).1.failed.getD 0
        = ((GetSubscriptionsByTopic store topic).filter fun s =>
            !(decide (codeClassify (env s) = Class.Delivered))).length)
    ∧ (∀ o : TransportOutcome,
        codeClassify o = Class.Gone ↔
          (claimClassify o = Class.Gone
            ∨ ∃ msg, o = TransportOutcome.networkError msg
                ∧ strContains ("failed to send notification: " ++ msg) "410 Gone" = true)) := by
  refine ⟨publish_store_filter env store topic, publish_failed_count env store topic, ?_⟩
  intro o
  cases o with
  | response status =>
    rw [classify_response_eq status]
    simp
  | networkError msg =>
    unfold codeClassify claimClassify sendNotificationResult
    by_cases hc : strContains ("failed to send notification: " ++ msg) "410 Gone" = true
    · simp [hc]
    · simp [Bool.eq_false_iff.mpr hc, hc]

/-- Witness for C2 as amended: with one subscriber whose delivery
returns status 410, the record is deleted; instantiates the
characterization at a concrete store, environment and outcome. -/
theorem C2_deletion_characterization_witness :
    (Publish (fun _ => TransportOutcome.response 410)
        [⟨1, "t", "https://h.example/a", "k", "a"⟩] "t").2.store
      = List.filter
          (fun r =>
            !((GetSubscriptionsByTopic [⟨1, "t", "https://h.example/a", "k", "a"⟩] "t").any
                fun s =>
                  decide (codeClassify ((fun _ => TransportOutcome.response 410) s)
                      = Class.Gone)
                    && s.endpoint == r.endpoint))
          [⟨1, "t", "https://h.example/a", "k", "a"⟩] :=
  (C2_deletion_characterization (fun _ => TransportOutcome.response 410)
    [⟨1, "t", "https://h.example/a", "k", "a"⟩] "t").1

/-- Claim C10: the engine-driven deletion on a Gone outcome is keyed by
endpoint alone — after a publish, a record survives iff no loaded
subscription of the published topic with the same endpoint was
classified Gone, irrespective of the record's own topic; and
`DeleteSubscription` itself keeps exactly the rows with a different
endpoint, across all topics. -/
theorem C10_deletion_keyed_by_endpoint (env : Env) (store : List Subscription)
    (topic : String) (r : Subscription) :
    (r ∈ (Publish env store topic).2.store ↔
      r ∈ store ∧ ∀ s ∈ GetSubscriptionsByTopic store topic,
        codeClassify (env s) = Class.Gone → s.endpoint ≠ r.endpoint)
    ∧ (∀ e, r ∈ DeleteSubscription store e ↔ r ∈ store ∧ r.endpoint ≠ e) := by
  constructor
  · rw [publish_store_filter env store topic]
    simp only [List.mem_filter, Bool.not_eq_true', List.any_eq_false, Bool.and_eq_true,
      decide_eq_true_eq, beq_iff_eq, not_and]
  · intro e
    unfold DeleteSubscription
    simp [List.mem_filter]

/-- Witness for C10: a 410 response for topic `t`'s subscriber at
endpoint `E` also removes the record registering `E` under the distinct
topic `u` — the record is gone although its topic was not published. -/
theorem C10_deletion_keyed_by_endpoint_witness :
    (⟨2, "u", "https://E.example/x", "k", "a"⟩ : Subscription) ∉
      (Publish (fun _ => TransportOutcome.response 410)
        [⟨1, "t", "https://E.example/x", "k", "a"⟩,
         ⟨2, "u", "https://E.example/x", "k", "a"⟩,
         ⟨3, "u", "https://F.example/y", "k", "a"⟩] "t").2.store := by
  intro hmem
  have h := ((C10_deletion_keyed_by_endpoint (fun _ => TransportOutcome.response 410)
      [⟨1, "t", "https://E.example/x", "k", "a"⟩,
       ⟨2, "u", "https://E.example/x", "k", "a"⟩,
       ⟨3, "u", "https://F.example/y", "k", "a"⟩] "t"
      ⟨2, "u", "https://E.example/x", "k", "a"⟩).1).mp hmem
  exact h.2 ⟨1, "t", "https://E.example/x", "k", "a"⟩ (by decide) (by decide) rfl

/-- Claim C7: in every state reachable while publishing to any number of
subscribers, the number of delivery transport calls simultaneously in
flight never exceeds the concurrency ceiling `MaxConcurrentPushes = 10`
enforced by the semaphore channel. -/
theorem C7_concurrency_ceiling {s : ConcState} (h : ConcReachable s) :
    inFlightCount s.workers ≤ MaxConcurrentPushes :=
  le_of_eq_of_le (concInvariant h).1 (concInvariant h).2

/-- Witness for C7: a reachable state of a three-subscriber publish with
one delivery in flight respects the ceiling. -/
theorem C7_concurrency_ceiling_witness :
    inFlightCount [WorkerPhase.inFlight, WorkerPhase.idle, WorkerPhase.idle]
      ≤ MaxConcurrentPushes := by
  have hstep : ConcStep ⟨List.replicate 3 WorkerPhase.idle, 0⟩
      ⟨[WorkerPhase.inFlight, WorkerPhase.idle, WorkerPhase.idle], 1⟩ := by
    have h := ConcStep.acquire ([] : List WorkerPhase) [WorkerPhase.idle, WorkerPhase.idle]
      0 (by decide)
    simpa using h
  exact C7_concurrency_ceiling (ConcReachable.step (ConcReachable.init 3) hstep)

/-- Claim C4, counterexample: the final Apple branch derives the token
audience from the request URL (`generateToken` receives
`req.URL.Scheme + "://" + req.URL.Host`, service.go lines 266-270), so
for an endpoint whose host matches the Apple provider domain but is not
exactly `web.push.apple.com` the audience is the derived origin, not
Apple's fixed origin: the audience is not pinned. -/
theorem C4_counterexample :
    hostMatchesApple ⟨"https", "foo.push.apple.com", "/sub1"⟩ = true
    ∧ isAppleEndpoint (endpointString ⟨"https", "foo.push.apple.com", "/sub1"⟩) = true
    ∧ assertionAudience ⟨"https", "foo.push.apple.com", "/sub1"⟩ ≠ appleFixedOrigin
    ∧ assertionAudience ⟨"https", "foo.push.apple.com", "/sub1"⟩
        = originOf ⟨"https", "foo.push.apple.com", "/sub1"⟩ := by
  decide

/-- Claim C4 as amended: for every endpoint whose host matches the
Apple push provider the assertion audience is the endpoint's own
scheme+host (derived from the request host, the same rule as for any
endpoint, and equal to Apple's fixed origin exactly when the host is
`web.push.apple.com`), and that audience still differs from the audience
of every endpoint the code does not detect as Apple, because only
Apple-matching hosts contain `push.apple.com`; the Apple assertion's
expiry is 45 minutes from issuance, strictly under one hour, and a
non-Apple endpoint's assertion audience equals that endpoint's
scheme+host. -/
theorem C4_apple_audience (u v : EndpointURL) (now : Nat)
    (hu : hostMatchesApple u = true)
    (hv : isAppleEndpoint (endpointString v) = false) :
    assertionAudience u = originOf u
    ∧ assertionAudience v = originOf v
    ∧ assertionAudience u ≠ assertionAudience v
    ∧ assertionExpiry now u = now + appleTokenLifetimeSeconds
    ∧ assertionExpiry now u < now + 3600 := by
  have huApple : isAppleEndpoint (endpointString u) = true := by
    unfold isAppleEndpoint
    exact strContains_endpoint_of_origin u _ (strContains_origin_of_host u _ hu)
  have haud : ∀ w : EndpointURL, assertionAudience w = originOf w := by
    intro w
    unfold assertionAudience
    exact ite_self _
  refine ⟨haud u, haud v, ?_, ?_, ?_⟩
  · intro heq
    rw [haud u, haud v] at heq
    have hvOrigin : strContains (originOf v) "push.apple.com" = true := by
      rw [← heq]
      exact strContains_origin_of_host u _ hu
    have hvEndpoint : strContains (endpointString v) "push.apple.com" = true :=
      strContains_endpoint_of_origin v _ hvOrigin
    unfold isAppleEndpoint at hv
    rw [hv] at hvEndpoint
    cases hvEndpoint
  · unfold assertionExpiry tokenLifetimeSeconds
    rw [if_pos huApple]
  · unfold assertionExpiry tokenLifetimeSeconds
    rw [if_pos huApple]
    unfold appleTokenLifetimeSeconds
    omega

/-- Witness for C4 as amended: the genuine Apple endpoint against a
Firebase endpoint, issued at time 1000. -/
theorem C4_apple_audience_witness :
    assertionAudience ⟨"https", "web.push.apple.com", "/p"⟩
        ≠ assertionAudience ⟨"https", "fcm.googleapis.com", "/send/1"⟩
    ∧ assertionExpiry 1000 ⟨"https", "web.push.apple.com", "/p"⟩ < 1000 + 3600 :=
  ⟨(C4_apple_audience ⟨"https", "web.push.apple.com", "/p"⟩
      ⟨"https", "fcm.googleapis.com", "/send/1"⟩ 1000 (by decide) (by decide)).2.2.1,
   (C4_apple_audience ⟨"https", "web.push.apple.com", "/p"⟩
      ⟨"https", "fcm.googleapis.com", "/send/1"⟩ 1000 (by decide) (by decide)).2.2.2.2⟩

/-- Claim C8: saving a subscription upserts on the `(topic, endpoint)`
identity key — after every save exactly one row holds that key; when the
key already existed the row count is unchanged, the matching row's key
material is replaced in place and every other row is untouched; when it
did not exist exactly the one fresh row is appended; and the uniqueness
invariant is preserved by every save. -/
theorem C8_save_subscription_upsert (store : List Subscription) (t e p a : String)
    (hu : UniqueKeys store) :
    UniqueKeys (SaveSubscription store t e p a)
    ∧ keyCount (SaveSubscription store t e p a) t e = 1
    ∧ (hasKey store t e = true →
        (SaveSubscription store t e p a).length = store.length
        ∧ ∀ r ∈ store,
            (keyMatches t e r = true →
              ({ r with p256dh := p, auth := a } : Subscription)
                ∈ SaveSubscription store t e p a)
            ∧ (keyMatches t e r = false → r ∈ SaveSubscription store t e p a))
    ∧ (hasKey store t e = false →
        SaveSubscription store t e p a = store ++ [⟨nextId store, t, e, p, a⟩]) := by
  by_cases hk : hasKey store t e = true
  · unfold SaveSubscription
    rw [if_pos hk]
    refine ⟨?_, ?_, ?_, ?_⟩
    · unfold UniqueKeys at hu ⊢
      rw [List.pairwise_map]
      refine hu.imp ?_
      intro x y hxy hcon
      exact hxy ⟨((upsertRow_keys t e p a x).1).symm.trans
          (hcon.1.trans (upsertRow_keys t e p a y).1),
        ((upsertRow_keys t e p a x).2).symm.trans
          (hcon.2.trans (upsertRow_keys t e p a y).2)⟩
    · unfold keyCount
      rw [List.countP_map]
      have hkeyc : ∀ x y : Subscription, x.topic = y.topic → x.endpoint = y.endpoint →
          keyMatches t e x = keyMatches t e y := by
        intro x y ht he
        unfold keyMatches
        rw [ht, he]
      have hcong : ∀ s : Subscription,
          (keyMatches t e
            ((fun s => if keyMatches t e s then { s with p256dh := p, auth := a } else s) s))
            = keyMatches t e s := by
        intro s
        dsimp only
        exact hkeyc _ s (upsertRow_keys t e p a s).1 (upsertRow_keys t e p a s).2
      calc store.countP (keyMatches t e ∘
              fun s => if keyMatches t e s then { s with p256dh := p, auth := a } else s)
            = store.countP (keyMatches t e) := by
              apply List.countP_congr
              intro s _
              rw [Function.comp_apply, hcong s]
        _ = 1 := keyCount_eq_one_of_unique store t e hu hk
    · intro _
      refine ⟨List.length_map _ _, ?_⟩
      intro r hr
      constructor
      · intro hm
        have hmem := List.mem_map_of_mem
          (fun s => if keyMatches t e s then { s with p256dh := p, auth := a } else s) hr
        simpa [hm] using hmem
      · intro hm
        have hmem := List.mem_map_of_mem
          (fun s => if keyMatches t e s then { s with p256dh := p, auth := a } else s) hr
        simpa [hm] using hmem
    · intro habs
      rw [hk] at habs
      cases habs
  · have hk' : hasKey store t e = false := Bool.eq_false_iff.mpr hk
    unfold SaveSubscription
    rw [if_neg hk]
    refine ⟨?_, ?_, ?_, fun _ => rfl⟩
    · unfold UniqueKeys at hu ⊢
      rw [List.pairwise_append]
      refine ⟨hu, List.pairwise_singleton _ _, ?_⟩
      intro x hx y hy hcon
      have hxm : keyMatches t e x = false := by
        cases hxm : keyMatches t e x
        · rfl
        · have : hasKey store t e = true := List.any_eq_true.mpr ⟨x, hx, hxm⟩
          rw [hk'] at this
          cases this
      rcases List.mem_singleton.mp hy with rfl
      unfold keyMatches at hxm
      simp only [Bool.and_eq_false_iff, beq_eq_false_iff_ne] at hxm
      rcases hxm with hxm | hxm
      · exact hxm hcon.1
      · exact hxm hcon.2
    · unfold keyCount
      rw [List.countP_append]
      have h0 : store.countP (keyMatches t e) = 0 :=
        keyCount_eq_zero_of_not_hasKey store t e hk'
      have h1 : List.countP (keyMatches t e) [⟨nextId store, t, e, p, a⟩] = 1 := by
        simp [keyMatches]
      rw [h0, h1]
    · intro habs
      rw [hk'] at habs
      cases habs

/-- Witness for C8: re-subscribing the key `("t", "https://E/x")` with
fresh key material keeps exactly one row for that key. -/
theorem C8_save_subscription_upsert_witness :
    keyCount (SaveSubscription
        [⟨1, "t", "https://E/x", "oldP", "oldA"⟩, ⟨2, "u", "https://F/y", "k", "a"⟩]
        "t" "https://E/x" "newP" "newA") "t" "https://E/x" = 1 :=
  (C8_save_subscription_upsert
    [⟨1, "t", "https://E/x", "oldP", "oldA"⟩, ⟨2, "u", "https://F/y", "k", "a"⟩]
    "t" "https://E/x" "newP" "newA" (by decide)).2.1

/-- Claim C9: `loadOrGenerateKeys` returns the parsed stored keypair
when the persisted file exists, fails with the corrupt-key-store error
when that file is malformed — generating and persisting nothing — and
otherwise generates a fresh keypair (private scalar zero-padded to 32
bytes, both halves passed through the base64url encoder), persists it
with owner-only `0600` permissions and returns it. -/
theorem C9_load_or_create (parse : String → Option VAPIDKeys) (ser : VAPIDKeys → String)
    (enc : List Nat → String) (dBytes pubBytes : List Nat) (fs : FileState)
    (data : String) (keys : VAPIDKeys) :
    (fs.contents = some data → parse data = some keys →
      loadOrGenerateKeys parse ser (generateVAPIDKeys enc dBytes pubBytes) fs
        = .ok (keys, fs))
    ∧ (fs.contents = some data → parse data = none →
      loadOrGenerateKeys parse ser (generateVAPIDKeys enc dBytes pubBytes) fs
        = .error KeyStoreError.corruptKeyStore)
    ∧ (fs.contents = none →
      loadOrGenerateKeys parse ser (generateVAPIDKeys enc dBytes pubBytes) fs
        = .ok (generateVAPIDKeys enc dBytes pubBytes,
            { contents := some (ser (generateVAPIDKeys enc dBytes pubBytes)),
              mode := some 0o600 }))
    ∧ generateVAPIDKeys enc dBytes pubBytes
        = ⟨enc (pad32 dBytes), enc pubBytes⟩
    ∧ (dBytes.length ≤ 32 → (pad32 dBytes).length = 32 ∨ dBytes = []) := by
  refine ⟨?_, ?_, ?_, rfl, ?_⟩
  · intro hc hp
    unfold loadOrGenerateKeys
    rw [hc]
    dsimp only
    rw [hp]
  · intro hc hp
    unfold loadOrGenerateKeys
    rw [hc]
    dsimp only
    rw [hp]
  · intro hc
    unfold loadOrGenerateKeys
    rw [hc]
  · intro hlen
    unfold pad32
    by_cases hlt : dBytes.length < 32
    · left
      rw [if_pos hlt]
      simp
      omega
    · left
      rw [if_neg hlt]
      omega

/-- Witness for C9: with a parser accepting the stored body, the stored
keypair is returned and the file is untouched. -/
theorem C9_load_or_create_witness :
    loadOrGenerateKeys (fun _ => some ⟨"P", "Q"⟩) (fun _ => "S")
        (generateVAPIDKeys (fun _ => "E") [7] [4])
        ⟨some "body", some 0o600⟩
      = .ok (⟨"P", "Q"⟩, ⟨some "body", some 0o600⟩) :=
  (C9_load_or_create (fun _ => some ⟨"P", "Q"⟩) (fun _ => "S") (fun _ => "E")
    [7] [4] ⟨some "body", some 0o600⟩ "body" ⟨"P", "Q"⟩).1 rfl rfl

end Pushem
